import Mathlib

/-
Shallow embedding of the stat-normalization and comparison engine of
`src/main.py` (Yahoo Fantasy Sports team-comparison tool).

Modelling conventions:
* Python floats are modelled as exact rationals (`ℚ`); the divisions that the
  percentage normalizer performs are exact in this model.
* A raw stat value (`stat.value` in the source) is either an empty `APIAttr`
  object (`RawValue.absent`), a string, or a number.
* Python's `float(...)` parser is modelled by `strToRat?` for the decimal
  forms `[+-]?digits[.digits]` that the upstream provider emits; every
  other string fails to parse, as in the source's `except (ValueError,
  TypeError)` branches.
* Python dicts (`all_team_stats`, `team_lookup`) are modelled as association
  lists in insertion order; the dict-comprehension `team_lookup` keeps the
  last binding for a duplicated key, hence the `reverse.find?` below.
* Python's stable `sorted(..., reverse=...)` is modelled by the stable
  insertion sort `sortS`: an element is placed before the first element it
  may precede, so ties keep encounter order exactly as CPython's stable
  sort does (also with `reverse=True`).
* A comparison between a float and a pass-through string value raises
  `TypeError` in Python and aborts the program; this is modelled by the
  `Option` result of `valCmp` / `h2hCats` / `buildMatchupResults`.
-/

/-- A raw per-category value as delivered by the upstream library:
an empty `APIAttr` placeholder object, a string, or a number. -/
inductive RawValue where
  | absent
  | str (s : String)
  | num (q : ℚ)
deriving DecidableEq

/-- A value as returned by `extract_stat_value`: a parsed number or a
passed-through non-numeric string. -/
inductive Val where
  | num (q : ℚ)
  | str (s : String)
deriving DecidableEq

/-- One `Stat` object of the upstream library.  Each field is optional
because the source probes them with `hasattr`; `id` is the `str(...)` image
of the stat id. -/
structure Stat where
  id : Option String
  display : Option String
  value : Option RawValue
deriving DecidableEq

/-- One entry of `categories_info` as built by `get_category_info_from_stats`. -/
structure CatInfo where
  id : String
  name : String
  index : Nat
deriving DecidableEq

/-- A league team (`team_id` plus display name). -/
structure Team where
  team_id : String
  name : String
deriving DecidableEq

/-- The ANSI color constants of class `Colors` in the source. -/
inductive Color where
  | green
  | yellow
  | red
  | reset
deriving DecidableEq

/-- Numeric value of a list of decimal digit characters (most significant
first), as consumed by Python's `float` parser. -/
def digitsToNat (cs : List Char) : Nat :=
  cs.foldl (fun n c => n * 10 + (c.toNat - 48)) 0

/-- Model of Python's `float(...)` on strings, restricted to plain decimal
literals `[+-]?digits`, `[+-]?digits.digits`, `[+-]?.digits`, `[+-]?digits.`;
all other strings fail (return `none`), matching the `ValueError` branch. -/
def strToRat? (s : String) : Option ℚ :=
  let cs := s.data
  let signRest : ℚ × List Char :=
    match cs with
    | '-' :: r => (-1, r)
    | '+' :: r => (1, r)
    | _ => (1, cs)
  let sign := signRest.1
  let rest := signRest.2
  let intPart := rest.takeWhile Char.isDigit
  let rest2 := rest.dropWhile Char.isDigit
  match rest2 with
  | [] => if intPart.isEmpty then none else some (sign * (digitsToNat intPart : ℚ))
  | '.' :: frac =>
    if frac.all Char.isDigit && !(intPart.isEmpty && frac.isEmpty) then
      some (sign * ((digitsToNat intPart : ℚ) + (digitsToNat frac : ℚ) / (10 : ℚ) ^ frac.length))
    else none
  | _ => none

/-- Model of `float(raw_value)` on a raw stat value: numbers parse to
themselves, strings go through the decimal parser, and the empty `APIAttr`
object raises `TypeError` (modelled as `none`). -/
def parseFloat : RawValue → Option ℚ
  | .num q => some q
  | .str s => strToRat? s
  | .absent => none

/-- The function `convert_percentage_value` of `src/main.py` (lines 309-348):
percentage-scale detection.  `none` models the `except` branch returning
`None`. -/
def convert_percentage_value (raw_value : RawValue) : Option ℚ :=
  match parseFloat raw_value with
  | none => none
  | some val =>
    if val < 1 then some val
    else if val ≥ 1000 then some (val / 100 / 100)
    else if val ≥ 100 then some (val / 10 / 100)
    else if val ≥ 1 then some (val / 100)
    else some val

/-- Model of Python's `int(...)` on strings: an optional sign followed by
decimal digits; anything else raises `ValueError` (`none`). -/
def strToInt? (s : String) : Option Int :=
  match s.data with
  | [] => none
  | '-' :: ds =>
    if ds ≠ [] ∧ ds.all Char.isDigit then some (-(digitsToNat ds : Int)) else none
  | '+' :: ds =>
    if ds ≠ [] ∧ ds.all Char.isDigit then some ((digitsToNat ds : Int)) else none
  | ds => if ds.all Char.isDigit then some ((digitsToNat ds : Int)) else none

/-- The function `is_percentage_stat` of `src/main.py` (lines 293-306),
specialised to the string ids that the callers pass. -/
def is_percentage_stat (stat_id : String) (stat_display : Option String) : Bool :=
  (["5", "8", "11"].contains stat_id) ||
    (match stat_display with
     | some d => if d = "" then false else d.data.contains '%'
     | none => false)

/-- The value-processing block shared by both lookup paths of
`extract_stat_value` (lines 372-387 and 394-409): empty-`APIAttr`,
empty-string and `"/"` placeholders become `None`; percentage stats go
through `convert_percentage_value`; otherwise a numeric parse is attempted
and a non-empty unparseable value is passed through unchanged. -/
def processStatValue (isPct : Bool) (v : RawValue) : Option Val :=
  if v = RawValue.absent then none
  else if v = RawValue.str "/" ∨ v = RawValue.str "" then none
  else if isPct then (convert_percentage_value v).map Val.num
  else
    match parseFloat v with
    | some q => some (Val.num q)
    | none =>
      match v with
      | .str s => if s ≠ "" then some (Val.str s) else none
      | _ => none

/-- The id-matching loop of `extract_stat_value` (lines 370-387): the first
stat whose `id` attribute is present and equals the requested id *and* that
has a `value` attribute supplies the raw value; a matching stat without a
`value` attribute is skipped, as in the source. -/
def findStatById : List Stat → String → Option RawValue
  | [], _ => none
  | s :: rest, tid =>
    match s.id with
    | some i =>
      if i = tid then
        match s.value with
        | some v => some v
        | none => findStatById rest tid
      else findStatById rest tid
    | none => findStatById rest tid

/-- The function `extract_stat_value` of `src/main.py` (lines 351-416),
including the numeric-index fallback path. -/
def extract_stat_value (stats_list : List Stat) (stat_id : String)
    (stat_display : Option String) : Option Val :=
  if stats_list.isEmpty then none
  else
    match findStatById stats_list stat_id with
    | some v => processStatValue (is_percentage_stat stat_id stat_display) v
    | none =>
      match strToInt? stat_id with
      | some i =>
        if h : 0 ≤ i ∧ i.toNat < stats_list.length then
          let stat := stats_list.get ⟨i.toNat, h.2⟩
          match stat.value with
          | some v =>
            processStatValue
              (match stat.display with
               | some d => d.data.contains '%'
               | none => false) v
          | none => none
        else none
      | none => none

/-- Auxiliary recursion of `get_category_info_from_stats`, carrying the
`enumerate` index. -/
def catInfoAux : Nat → List Stat → List CatInfo
  | _, [] => []
  | idx, s :: rest =>
    match s.display with
    | none => catInfoAux (idx + 1) rest
    | some name =>
      if name = "" then catInfoAux (idx + 1) rest
      else if name.data.contains '/' ∧ name ≠ "A/T" then catInfoAux (idx + 1) rest
      else
        { id := match s.id with | some i => i | none => toString idx,
          name := name, index := idx } :: catInfoAux (idx + 1) rest

/-- The function `get_category_info_from_stats` of `src/main.py`
(lines 257-290): resolves the ordered category list from a sample team's
stats, skipping ratio stats such as `FGM/FGA` but keeping `A/T`. -/
def get_category_info_from_stats (stats_list : List Stat) : List CatInfo :=
  catInfoAux 0 stats_list

/-- Boolean substring containment (Python's `needle in hay` on strings),
on the underlying character lists. -/
def containsSub (needle : List Char) : List Char → Bool
  | [] => needle.isEmpty
  | c :: rest => needle.isPrefixOf (c :: rest) || containsSub needle rest

/-- Model of Python's `str.lower()`: character-wise lower-casing. -/
def lowerString (s : String) : String :=
  ⟨s.data.map Char.toLower⟩

/-- The function `is_lower_better_stat` of `src/main.py` (lines 419-439). -/
def is_lower_better_stat (category_name : String) (stat_id : Option String) : Bool :=
  let category_lower := lowerString category_name
  if containsSub "turnover".data category_lower.data then true
  else if category_lower = "to" ∨ category_lower = "tov" then true
  else if "to ".data.isPrefixOf category_lower.data ||
      " to".data.isSuffixOf category_lower.data then true
  else
    match stat_id with
    | some s => decide (s ≠ "" ∧ s = "19")
    | none => false

/-- The function `get_color_for_performance` of `src/main.py`
(lines 442-460). -/
def get_color_for_performance (better_than total_teams : Nat) : Color :=
  if total_teams = 0 then Color.reset
  else
    if ((better_than : ℚ) / (total_teams : ℚ)) ≥ 7 / 10 then Color.green
    else if ((better_than : ℚ) / (total_teams : ℚ)) < 3 / 10 then Color.red
    else Color.yellow

/-- Stable insertion: place `x` before the first element `y` with
`keep x y`.  When `keep` holds on equal sort keys this realises CPython's
stable `sorted`, also for `reverse=True` (ties keep encounter order). -/
def insertS {α : Type*} (keep : α → α → Bool) (x : α) : List α → List α
  | [] => [x]
  | y :: l => if keep x y then x :: y :: l else y :: insertS keep x l

/-- Stable sort built from `insertS`; model of Python's `sorted` /
`list.sort`. -/
def sortS {α : Type*} (keep : α → α → Bool) : List α → List α
  | [] => []
  | x :: xs => insertS keep x (sortS keep xs)

/-- One row of the per-category comparison data of `compare_teams`:
a team's id, its display name, and its extracted value for the category
(`None` when the team has no comparable value).  The comparison layer is
modelled over numeric values; a passed-through string value would raise
`TypeError` inside `sorted` in the source. -/
abbrev TeamRow : Type := String × String × Option ℚ

/-- The `all_values` list of `compare_teams` (lines 527-541): every team
with a non-`None` value, as `(team_name, value)` pairs, in supply order. -/
def allValues (rows : List TeamRow) : List (String × ℚ) :=
  rows.filterMap fun r => r.2.2.map fun v => (r.2.1, v)

/-- The `other_values` list of `compare_teams` (lines 527-541): as
`allValues` but excluding the selected team. -/
def otherValues (selected_team_id : String) (rows : List TeamRow) :
    List (String × ℚ) :=
  rows.filterMap fun r =>
    if r.1 = selected_team_id then none else r.2.2.map fun v => (r.2.1, v)

/-- The `sorted(all_values, key=lambda x: x[1], reverse=higher_is_better)`
call of `compare_teams` (line 554). -/
def sortByValue (higher_is_better : Bool) (l : List (String × ℚ)) :
    List (String × ℚ) :=
  sortS (fun a b => if higher_is_better then decide (b.2 ≤ a.2) else decide (a.2 ≤ b.2)) l

/-- The `better_than` count of `compare_teams` (lines 564-567): opponents
strictly worse than the selected value per the category's polarity. -/
def better_than_count (higher_is_better : Bool) (selected_value : ℚ)
    (other_values : List (String × ℚ)) : Nat :=
  if higher_is_better then other_values.countP fun p => decide (selected_value > p.2)
  else other_values.countP fun p => decide (selected_value < p.2)

/-- The per-category ranking data computed by one iteration of the
`compare_teams` loop: beaten count, comparable-opponent count, best and
worst `(team, value)` pairs, the `vs_teams` ratio string, and the
performance color (`none` models the uncolored `"-"` of the zero-opponent
branch). -/
structure CatResult where
  beaten : Nat
  oppCount : Nat
  best : String × ℚ
  worst : String × ℚ
  vsTeams : String
  color : Option Color
deriving DecidableEq

/-- One iteration of the per-category loop of `compare_teams`
(lines 510-572), for a category in which the selected team has a comparable
value `selected_value`.  Returns `none` when no team at all has a value
(the `N/A` row of line 543-546). -/
def compareCategory (category_name stat_id selected_team_id : String)
    (selected_value : ℚ) (rows : List TeamRow) : Option CatResult :=
  if (allValues rows).isEmpty then none
  else
    some
      { beaten := better_than_count (!is_lower_better_stat category_name (some stat_id))
          selected_value (otherValues selected_team_id rows)
        oppCount := (otherValues selected_team_id rows).length
        best := (sortByValue (!is_lower_better_stat category_name (some stat_id))
          (allValues rows)).headI
        worst := (sortByValue (!is_lower_better_stat category_name (some stat_id))
          (allValues rows)).getLastI
        vsTeams :=
          if (otherValues selected_team_id rows).isEmpty then "0/0"
          else
            toString (better_than_count (!is_lower_better_stat category_name (some stat_id))
                selected_value (otherValues selected_team_id rows)) ++ "/" ++
              toString (otherValues selected_team_id rows).length
        color :=
          if (otherValues selected_team_id rows).isEmpty then none
          else
            some (get_color_for_performance
              (better_than_count (!is_lower_better_stat category_name (some stat_id))
                selected_value (otherValues selected_team_id rows))
              (otherValues selected_team_id rows).length) }

/-- A category-by-category outcome for the selected team (`'W'`, `'L'`,
`'T'` in the source). -/
inductive Outcome where
  | W
  | L
  | T
deriving DecidableEq

/-- One entry of `matchup_results` in `compare_head_to_head`
(lines 690-696). -/
structure MatchupResult where
  team : Team
  score : String
  wins : Nat
  losses : Nat
  category_results : List (String × Outcome)
deriving DecidableEq

/-- Python's `>` / `<` comparison on extracted values: defined on two
numbers or two strings (strings compare lexicographically); comparing a
number with a string raises `TypeError`, modelled as `none`. -/
def valCmp : Val → Val → Option Ordering
  | .num a, .num b => some (compare a b)
  | .str a, .str b => some (compare a b)
  | _, _ => none

/-- The category tally loop of `compare_head_to_head` (lines 645-685) for
one opponent: categories with a falsy stat id are skipped, categories where
either side's extracted value is `None` are skipped, the rest are compared
per the category's polarity.  `none` models a `TypeError` crash on a
number-versus-string comparison. -/
def h2hCats (selected_stats opponent_stats : List Stat) :
    List CatInfo → Option (Nat × Nat × List (String × Outcome))
  | [] => some (0, 0, [])
  | c :: rest =>
    if c.id = "" then h2hCats selected_stats opponent_stats rest
    else
      match extract_stat_value selected_stats c.id (some c.name) with
      | none => h2hCats selected_stats opponent_stats rest
      | some sv =>
        match extract_stat_value opponent_stats c.id (some c.name) with
        | none => h2hCats selected_stats opponent_stats rest
        | some ov =>
          match valCmp sv ov with
          | none => none
          | some ord =>
            match h2hCats selected_stats opponent_stats rest with
            | none => none
            | some (w, l, res) =>
              if (if !is_lower_better_stat c.name (some c.id) then ord = Ordering.gt
                  else ord = Ordering.lt) then
                some (w + 1, l, (c.name, Outcome.W) :: res)
              else if (if !is_lower_better_stat c.name (some c.id) then ord = Ordering.lt
                  else ord = Ordering.gt) then
                some (w, l + 1, (c.name, Outcome.L) :: res)
              else some (w, l, (c.name, Outcome.T) :: res)

/-- Number of ties in a per-category outcome list. -/
def tiesOf (res : List (String × Outcome)) : Nat :=
  res.countP fun p => decide (p.2 = Outcome.T)

/-- The `team_lookup` dict of the source (`{team.team_id: team for team in
all_teams}`): the last binding wins for a duplicated key. -/
def teamLookup (all_teams : List Team) (tid : String) : Option Team :=
  all_teams.reverse.find? fun t => t.team_id == tid

/-- The opponent loop of `compare_head_to_head` (lines 632-696): one
`MatchupResult` per entry of `all_team_stats` that is neither the selected
team nor missing from `team_lookup`, in supply order.  `none` models a
`TypeError` crash inside some opponent's tally. -/
def buildMatchupResults (selected_team_id : String) (selected_stats : List Stat)
    (all_teams : List Team) (cats : List CatInfo) :
    List (String × List Stat) → Option (List MatchupResult)
  | [] => some []
  | (tid, stats) :: rest =>
    if tid = selected_team_id then
      buildMatchupResults selected_team_id selected_stats all_teams cats rest
    else
      match teamLookup all_teams tid with
      | none => buildMatchupResults selected_team_id selected_stats all_teams cats rest
      | some team =>
        match h2hCats selected_stats stats cats with
        | none => none
        | some (w, l, res) =>
          match buildMatchupResults selected_team_id selected_stats all_teams cats rest with
          | none => none
          | some ms =>
            some ({ team := team,
                    score := toString w ++ "-" ++ toString l,
                    wins := w, losses := l,
                    category_results := res } :: ms)

/-- The function `compare_head_to_head` of `src/main.py` (lines 614-744),
up to the purely presentational printing: build one result per opponent,
then stably sort by win count descending (line 699). -/
def compare_head_to_head (selected_team : Team) (selected_stats : List Stat)
    (all_teams : List Team) (all_team_stats : List (String × List Stat))
    (cats : List CatInfo) : Option (List MatchupResult) :=
  (buildMatchupResults selected_team.team_id selected_stats all_teams cats
      all_team_stats).map
    (sortS fun a b => decide (b.wins ≤ a.wins))

/-- C1: normalization of a numeric percentage raw value is the piecewise
function of the claim: `v < 1` is kept, `1 ≤ v < 100` becomes `v/100`,
`100 ≤ v < 1000` becomes `(v/10)/100` (so `454` normalizes to `0.454`),
and `v ≥ 1000` becomes `(v/100)/100` (so `4540` normalizes to `0.454`). -/
theorem convert_percentage_value_piecewise :
    (∀ v : ℚ, convert_percentage_value (RawValue.num v) =
      some (if v < 1 then v
        else if v < 100 then v / 100
        else if v < 1000 then v / 10 / 100
        else v / 100 / 100)) ∧
    convert_percentage_value (RawValue.num 454) = some (454 / 1000) ∧
    convert_percentage_value (RawValue.num 4540) = some (454 / 1000) := by
  refine ⟨fun v => ?_, by norm_num [convert_percentage_value, parseFloat],
    by norm_num [convert_percentage_value, parseFloat]⟩
  simp only [convert_percentage_value, parseFloat]
  split_ifs <;> first | rfl | linarith

/-- C5: for the LowerIsBetter category `"TO"` with selected value `5` and
opponent values `[3, 7, 5]`, the comparator reports `beaten = 1` (only the
`7` is strictly worse; the tie at `5` does not count), best value `3` and
worst value `7` (head and tail of the ascending stable sort of all
comparable values). -/
theorem compareCategory_turnover_scenario :
    is_lower_better_stat "TO" (some "19") = true ∧
    (compareCategory "TO" "19" "t1" 5
      [("t1", "Alpha", some 5), ("t2", "Beta", some 3),
       ("t3", "Gamma", some 7), ("t4", "Delta", some 5)]).map
        (fun r => (r.beaten, r.oppCount, r.best, r.worst, r.vsTeams)) =
      some (1, 3, ("Beta", 3), ("Gamma", 7), "1/3") := by
  constructor
  · decide
  · decide

theorem containsSub_iff (n h : List Char) : containsSub n h = true ↔ n <:+: h := by
  induction h with
  | nil => simp [containsSub, List.infix_nil]
  | cons c rest ih =>
    simp [containsSub, List.infix_cons_iff, ih, List.isPrefixOf_iff_prefix]

theorem is_lower_better_stat_eq_or (n : String) (sid : Option String) :
    is_lower_better_stat n sid =
      (containsSub "turnover".data (lowerString n).data ||
        decide (lowerString n = "to" ∨ lowerString n = "tov") ||
        ("to ".data.isPrefixOf (lowerString n).data ||
          " to".data.isSuffixOf (lowerString n).data) ||
        decide (sid = some "19")) := by
  simp only [is_lower_better_stat]
  split_ifs with h1 h2 h3
  · simp [h1]
  · simp [h1, h2]
  · simp [h1, h2, h3]
  · cases sid with
    | none => simp [h1, h2, h3]
    | some s =>
      simp only [h1, h2, h3, Bool.false_or, decide_eq_true_eq]
      rcases eq_or_ne s "19" with hs | hs
      · subst hs; simp
      · simp [hs]

/-- C4: a category is LowerIsBetter if and only if its display name
lower-cased contains `"turnover"`, equals `"to"` or `"tov"`, starts with
`"to "` or ends with `" to"`, or its stable id is the known turnover id
`"19"`; every other category is HigherIsBetter. -/
theorem is_lower_better_stat_spec (category_name : String) (stat_id : Option String) :
    is_lower_better_stat category_name stat_id = true ↔
      ("turnover".data <:+: (lowerString category_name).data ∨
        lowerString category_name = "to" ∨
        lowerString category_name = "tov" ∨
        "to ".data <+: (lowerString category_name).data ∨
        " to".data <:+ (lowerString category_name).data ∨
        stat_id = some "19") := by
  rw [is_lower_better_stat_eq_or]
  simp only [Bool.or_eq_true, decide_eq_true_eq, containsSub_iff,
    List.isPrefixOf_iff_prefix, List.isSuffixOf_iff_suffix]
  tauto

theorem catInfoAux_names (idx : Nat) (stats : List Stat) :
    (catInfoAux idx stats).map CatInfo.name =
      (stats.filterMap Stat.display).filter
        (fun n => !(n == "") && (n == "A/T" || !(n.data.contains '/'))) := by
  induction stats generalizing idx with
  | nil => rfl
  | cons s rest ih =>
    cases hd : s.display with
    | none => simp [catInfoAux, hd, List.filterMap_cons, ih]
    | some name =>
      by_cases h1 : name = ""
      · subst h1; simp [catInfoAux, hd, List.filterMap_cons, ih]
      · by_cases h2 : '/' ∈ name.data ∧ name ≠ "A/T"
        · simp [catInfoAux, hd, h1, h2.1, h2.2, List.filterMap_cons, ih]
        · rw [not_and_or] at h2
          rcases h2 with hc | ha
          · simp [catInfoAux, hd, h1, hc, List.filterMap_cons, ih]
          · rw [not_not] at ha
            simp [catInfoAux, hd, h1, ha, List.filterMap_cons, ih]

/-- C3: category resolution keeps, in source order, exactly the stats whose
display name does not contain `"/"` or is the literal `"A/T"`; in
particular `["PTS", "FGM/FGA", "A/T", "TO"]` resolves to
`["PTS", "A/T", "TO"]`. -/
theorem get_category_info_excludes_slash :
    (∀ stats_list : List Stat,
        (∀ s ∈ stats_list, s.display.getD "" ≠ "") →
        (get_category_info_from_stats stats_list).map CatInfo.name =
          (stats_list.filterMap Stat.display).filter
            (fun n => n == "A/T" || !(n.data.contains '/'))) ∧
    (get_category_info_from_stats
        [⟨some "0", some "PTS", none⟩, ⟨some "1", some "FGM/FGA", none⟩,
         ⟨some "2", some "A/T", none⟩, ⟨some "3", some "TO", none⟩]).map CatInfo.name =
      ["PTS", "A/T", "TO"] := by
  constructor
  · intro stats h
    rw [get_category_info_from_stats, catInfoAux_names]
    apply List.filter_congr
    intro n hn
    have hne : n ≠ "" := by
      rcases List.mem_filterMap.mp hn with ⟨s, hs, hds⟩
      have hx := h s hs
      rw [hds] at hx
      simpa using hx
    simp [hne]
  · decide

/-- C2: an absent (empty `APIAttr`), empty-string or `"/"` raw value
normalizes to `None`, and a team whose normalized value is `None` for a
category contributes to neither the all-values nor the opponents-beaten
comparison of that category (removing such a row leaves the whole
per-category report unchanged). -/
theorem none_value_excluded :
    (∀ (stats_list : List Stat) (stat_id : String) (stat_display : Option String)
        (v : RawValue),
      findStatById stats_list stat_id = some v →
      (v = RawValue.absent ∨ v = RawValue.str "" ∨ v = RawValue.str "/") →
      extract_stat_value stats_list stat_id stat_display = none) ∧
    (∀ (category_name stat_id selected_team_id : String) (selected_value : ℚ)
        (rows₁ rows₂ : List TeamRow) (tid nm : String),
      compareCategory category_name stat_id selected_team_id selected_value
          (rows₁ ++ (tid, nm, none) :: rows₂) =
        compareCategory category_name stat_id selected_team_id selected_value
          (rows₁ ++ rows₂)) := by
  constructor
  · intro stats sid disp v hfind hv
    have hne : stats ≠ [] := by
      intro h
      subst h
      simp [findStatById] at hfind
    simp only [extract_stat_value]
    rw [if_neg (by simpa [List.isEmpty_iff] using hne)]
    rw [hfind]
    rcases hv with h | h | h <;> subst h <;> rfl
  · intro cn sid selId sv r1 r2 tid nm
    have hall : allValues (r1 ++ (tid, nm, none) :: r2) = allValues (r1 ++ r2) := by
      simp [allValues, List.filterMap_append]
    have hoth : otherValues selId (r1 ++ (tid, nm, none) :: r2) =
        otherValues selId (r1 ++ r2) := by
      simp [otherValues, List.filterMap_append]
    simp only [compareCategory, hall, hoth]

/-- Witness for C2: a `"/"` placeholder extracts to `None`, and a row with
`None` value changes nothing in the category report. -/
theorem none_value_excluded_witness :
    extract_stat_value [⟨some "0", some "PTS", some (RawValue.str "/")⟩] "0"
        (some "PTS") = none ∧
    compareCategory "PTS" "0" "t1" 5
        ([("t1", "Alpha", some 5)] ++ ("t9", "Ghost", none) :: [("t2", "Beta", some 3)]) =
      compareCategory "PTS" "0" "t1" 5
        ([("t1", "Alpha", some 5)] ++ [("t2", "Beta", some 3)]) :=
  ⟨none_value_excluded.1 _ "0" (some "PTS") (RawValue.str "/") (by decide)
      (Or.inr (Or.inr rfl)),
    none_value_excluded.2 "PTS" "0" "t1" 5 [("t1", "Alpha", some 5)]
      [("t2", "Beta", some 3)] "t9" "Ghost"⟩

/-- C9: with a comparable selected value but zero comparable opponents the
report shows the ratio `"0/0"` and carries no performance color, and the
color classification guards the zero denominator (returns the neutral
reset color instead of dividing). -/
theorem zero_opponents_report :
    (∀ (category_name stat_id selected_team_id : String) (selected_value : ℚ)
        (rows : List TeamRow) (r : CatResult),
      compareCategory category_name stat_id selected_team_id selected_value rows =
          some r →
      otherValues selected_team_id rows = [] →
      r.vsTeams = "0/0" ∧ r.color = none) ∧
    (∀ n : Nat, get_color_for_performance n 0 = Color.reset) := by
  constructor
  · intro cn sid selId sv rows r hr hov
    simp only [compareCategory] at hr
    by_cases hav : (allValues rows).isEmpty
    · rw [if_pos hav] at hr
      cases hr
    · rw [if_neg hav] at hr
      injection hr with hr
      subst hr
      simp [hov]
  · intro n
    simp [get_color_for_performance]

/-- Witness for C9 at a roster where only the selected team has a value. -/
theorem zero_opponents_report_witness :
    CatResult.vsTeams ⟨0, 0, ("Alpha", 5), ("Alpha", 5), "0/0", none⟩ = "0/0" ∧
    CatResult.color ⟨0, 0, ("Alpha", 5), ("Alpha", 5), "0/0", none⟩ = none :=
  zero_opponents_report.1 "PTS" "0" "t1" 5 [("t1", "Alpha", some 5)]
    ⟨0, 0, ("Alpha", 5), ("Alpha", 5), "0/0", none⟩ (by decide) (by decide)

/-- C6: the reported beaten count never exceeds the comparable-opponent
count, and it is invariant under permuting the order in which the teams'
stat records are supplied. -/
theorem beaten_count_bound_and_perm :
    ∀ (category_name stat_id selected_team_id : String) (selected_value : ℚ)
      (rows rows' : List TeamRow),
      rows.Perm rows' →
      ∀ r : CatResult,
        compareCategory category_name stat_id selected_team_id selected_value rows =
            some r →
        r.beaten ≤ r.oppCount ∧
          (compareCategory category_name stat_id selected_team_id selected_value
              rows').map (fun x => x.beaten) = some r.beaten := by
  intro cn sid selId sv rows rows' hperm r hr
  have hall : (allValues rows).Perm (allValues rows') := hperm.filterMap _
  have hoth : (otherValues selId rows).Perm (otherValues selId rows') :=
    hperm.filterMap _
  simp only [compareCategory] at hr ⊢
  by_cases hav : (allValues rows).isEmpty
  · rw [if_pos hav] at hr
    cases hr
  · rw [if_neg hav] at hr
    injection hr with hr
    subst hr
    have hav' : ¬(allValues rows').isEmpty := by
      rw [List.isEmpty_iff] at hav ⊢
      intro h
      rw [h] at hall
      exact hav hall.eq_nil
    constructor
    · simp only [better_than_count]
      split_ifs <;> exact List.countP_le_length _
    · rw [if_neg hav']
      simp only [Option.map_some']
      congr 1
      simp only [better_than_count]
      split_ifs
      · exact (hoth.countP_eq _).symm
      · exact (hoth.countP_eq _).symm

/-- Witness for C6 at a two-row roster and its swap. -/
theorem beaten_count_bound_and_perm_witness :
    CatResult.beaten ⟨0, 0, ("Alpha", 5), ("Alpha", 5), "0/0", none⟩ ≤
      CatResult.oppCount ⟨0, 0, ("Alpha", 5), ("Alpha", 5), "0/0", none⟩ ∧
    (compareCategory "PTS" "0" "t1" 5
        [("t9", "Ghost", none), ("t1", "Alpha", some 5)]).map (fun x => x.beaten) =
      some (CatResult.beaten ⟨0, 0, ("Alpha", 5), ("Alpha", 5), "0/0", none⟩) :=
  beaten_count_bound_and_perm "PTS" "0" "t1" 5
    [("t1", "Alpha", some 5), ("t9", "Ghost", none)]
    [("t9", "Ghost", none), ("t1", "Alpha", some 5)]
    (List.Perm.swap _ _ _) _ (by decide)

/-- Witness for C3 at the concrete four-stat sample of the claim. -/
theorem get_category_info_excludes_slash_witness :
    (get_category_info_from_stats
        [⟨some "0", some "PTS", none⟩, ⟨some "1", some "FGM/FGA", none⟩,
         ⟨some "2", some "A/T", none⟩, ⟨some "3", some "TO", none⟩]).map CatInfo.name =
      ([⟨some "0", some "PTS", none⟩, ⟨some "1", some "FGM/FGA", none⟩,
        ⟨some "2", some "A/T", none⟩,
        (⟨some "3", some "TO", none⟩ : Stat)].filterMap Stat.display).filter
        (fun n => n == "A/T" || !(n.data.contains '/')) :=
  get_category_info_excludes_slash.1 _ (by decide)

/-- C10 counterexample: the raw value `"/"` is non-empty (and truthy) and
fails numeric parsing for a non-percentage category, yet normalization
returns `None` rather than passing the value through. -/
theorem passthrough_fails_on_slash :
    is_percentage_stat "0" (some "PTS") = false ∧
    strToRat? "/" = none ∧
    "/" ≠ "" ∧
    extract_stat_value [⟨some "0", some "PTS", some (RawValue.str "/")⟩] "0"
        (some "PTS") = none ∧
    extract_stat_value [⟨some "0", some "PTS", some (RawValue.str "/")⟩] "0"
        (some "PTS") ≠ some (Val.str "/") := by
  decide

/-- C10 (amended): for a non-percentage category, a non-empty raw string
value other than the placeholder `"/"` that fails numeric parsing is passed
through unchanged, and among unparseable string values exactly the empty
string and the `"/"` placeholder normalize to `None`. -/
theorem passthrough_on_parse_failure :
    (∀ (stats_list : List Stat) (stat_id : String) (stat_display : Option String)
        (s : String),
      is_percentage_stat stat_id stat_display = false →
      findStatById stats_list stat_id = some (RawValue.str s) →
      s ≠ "" → s ≠ "/" →
      strToRat? s = none →
      extract_stat_value stats_list stat_id stat_display = some (Val.str s)) ∧
    (∀ s : String, strToRat? s = none →
      (processStatValue false (RawValue.str s) = none ↔ (s = "" ∨ s = "/"))) := by
  constructor
  · intro stats sid disp s hpct hfind hs1 hs2 hparse
    have hne : stats ≠ [] := by
      intro h
      subst h
      simp [findStatById] at hfind
    simp only [extract_stat_value]
    rw [if_neg (by simpa [List.isEmpty_iff] using hne), hfind, hpct]
    simp [processStatValue, hs1, hs2, parseFloat, hparse]
  · intro s hparse
    by_cases h1 : s = ""
    · subst h1
      simp [processStatValue]
    · by_cases h2 : s = "/"
      · subst h2
        simp [processStatValue]
      · simp [processStatValue, h1, h2, parseFloat, hparse]

/-- Witness for C10 (amended) at the unparseable non-empty value `"abc"`. -/
theorem passthrough_on_parse_failure_witness :
    extract_stat_value [⟨some "0", some "PTS", some (RawValue.str "abc")⟩] "0"
        (some "PTS") = some (Val.str "abc") ∧
    (processStatValue false (RawValue.str "abc") = none ↔
      ("abc" = "" ∨ "abc" = "/")) :=
  ⟨passthrough_on_parse_failure.1 _ "0" (some "PTS") "abc" (by decide) (by decide)
      (by decide) (by decide) (by decide),
    passthrough_on_parse_failure.2 "abc" (by decide)⟩


theorem h2hCats_spec (selS oppS : List Stat) :
    ∀ (cats : List CatInfo) (w l : Nat) (res : List (String × Outcome)),
      h2hCats selS oppS cats = some (w, l, res) →
      w + l + tiesOf res = res.length ∧
      res.length ≤ cats.length ∧
      ((∀ c ∈ cats, c.id ≠ "") →
        (res.length = cats.length ↔
          ∀ c ∈ cats, extract_stat_value selS c.id (some c.name) ≠ none ∧
            extract_stat_value oppS c.id (some c.name) ≠ none)) := by
  intro cats
  induction cats with
  | nil =>
    intro w l res h
    simp only [h2hCats, Option.some.injEq, Prod.mk.injEq] at h
    obtain ⟨rfl, rfl, rfl⟩ := h
    simp [tiesOf]
  | cons c rest ih =>
    intro w l res h
    simp only [h2hCats] at h
    by_cases hid : c.id = ""
    · rw [if_pos hid] at h
      obtain ⟨h1, h2, _⟩ := ih w l res h
      refine ⟨h1, h2.trans (Nat.le_succ _), fun hids => ?_⟩
      exact absurd hid (hids c (List.mem_cons_self _ _))
    · rw [if_neg hid] at h
      split at h
      case _ hsel =>
        obtain ⟨h1, h2, _⟩ := ih w l res h
        refine ⟨h1, by simpa [List.length_cons] using h2.trans (Nat.le_succ _), fun _ => ?_⟩
        constructor
        · intro hlen
          exfalso
          rw [List.length_cons] at hlen
          omega
        · intro hall
          exact absurd hsel (hall c (List.mem_cons_self _ _)).1
      case _ sv hsel =>
        split at h
        case _ hopp =>
          obtain ⟨h1, h2, _⟩ := ih w l res h
          refine ⟨h1, by simpa [List.length_cons] using h2.trans (Nat.le_succ _), fun _ => ?_⟩
          constructor
          · intro hlen
            exfalso
            rw [List.length_cons] at hlen
            omega
          · intro hall
            exact absurd hopp (hall c (List.mem_cons_self _ _)).2
        case _ ov hopp =>
          split at h
          case _ hcmp => cases h
          case _ ord hcmp =>
            split at h
            case _ hrec => cases h
            case _ w' l' res' hrec =>
              obtain ⟨ih1, ih2, ih3⟩ := ih w' l' res' hrec
              have hiff : (∀ x ∈ rest, x.id ≠ "") →
                  ((res'.length + 1 = rest.length + 1) ↔
                    ∀ x ∈ c :: rest, extract_stat_value selS x.id (some x.name) ≠ none ∧
                      extract_stat_value oppS x.id (some x.name) ≠ none) := by
                intro hids
                rw [Nat.add_right_cancel_iff, ih3 hids]
                simp [List.forall_mem_cons, hsel, hopp]
              split_ifs at h
              all_goals
                simp only [Option.some.injEq, Prod.mk.injEq] at h
                obtain ⟨rfl, rfl, rfl⟩ := h
                refine ⟨?_, ?_, ?_⟩
                · simp [tiesOf, List.countP_cons] at ih1 ⊢
                  omega
                · simp only [List.length_cons]
                  omega
                · intro hids
                  have h3 := hiff fun x hx => hids x (List.mem_cons_of_mem _ hx)
                  simpa only [List.length_cons] using h3

/-- C7 counterexample: the tally equality direction of the claim fails as
stated.  With a single category whose stat id is the empty string, both
sides have comparable extracted values (so no category is skipped for
missing data), yet the source skips the category at `if not stat_id` and
`wins + losses + ties = 0 ≠ 1 = total_categories`. -/
theorem h2h_equality_fails_on_empty_id :
    h2hCats [⟨some "", some "PTS", some (RawValue.num 5)⟩]
        [⟨some "", some "PTS", some (RawValue.num 5)⟩]
        [⟨"", "PTS", 0⟩] = some (0, 0, []) ∧
    extract_stat_value [⟨some "", some "PTS", some (RawValue.num 5)⟩] ""
        (some "PTS") = some (Val.num 5) ∧
    0 + 0 + tiesOf [] ≠ [(⟨"", "PTS", 0⟩ : CatInfo)].length := by
  refine ⟨by decide, by decide, by decide⟩

/-- C7 (amended): for every opponent, a category is skipped from the tally
whenever either side's extracted value is `None`, so
`wins + losses + ties ≤ total_categories`; provided every category carries
a nonempty stat id, equality holds exactly when no category was skipped
for missing data. -/
theorem h2h_tally_bound (selected_stats opponent_stats : List Stat)
    (cats : List CatInfo) (w l : Nat) (res : List (String × Outcome)) :
    (∀ c ∈ cats, c.id ≠ "") →
    h2hCats selected_stats opponent_stats cats = some (w, l, res) →
    w + l + tiesOf res ≤ cats.length ∧
    (w + l + tiesOf res = cats.length ↔
      ∀ c ∈ cats,
        extract_stat_value selected_stats c.id (some c.name) ≠ none ∧
        extract_stat_value opponent_stats c.id (some c.name) ≠ none) := by
  intro hids h
  obtain ⟨h1, h2, h3⟩ := h2hCats_spec selected_stats opponent_stats cats w l res h
  rw [h1]
  exact ⟨h2, h3 hids⟩

/-- Witness for C7 (amended) at a two-category matchup with full data. -/
theorem h2h_tally_bound_witness :
    2 + 0 + tiesOf [("PTS", Outcome.W), ("TO", Outcome.W)] ≤
      [(⟨"0", "PTS", 0⟩ : CatInfo), ⟨"19", "TO", 1⟩].length ∧
    (2 + 0 + tiesOf [("PTS", Outcome.W), ("TO", Outcome.W)] =
        [(⟨"0", "PTS", 0⟩ : CatInfo), ⟨"19", "TO", 1⟩].length ↔
      ∀ c ∈ [(⟨"0", "PTS", 0⟩ : CatInfo), ⟨"19", "TO", 1⟩],
        extract_stat_value
            [⟨some "0", some "PTS", some (RawValue.num 10)⟩,
             ⟨some "19", some "TO", some (RawValue.num 3)⟩] c.id (some c.name) ≠ none ∧
        extract_stat_value
            [⟨some "0", some "PTS", some (RawValue.num 8)⟩,
             ⟨some "19", some "TO", some (RawValue.num 5)⟩] c.id (some c.name) ≠ none) :=
  h2h_tally_bound
    [⟨some "0", some "PTS", some (RawValue.num 10)⟩,
     ⟨some "19", some "TO", some (RawValue.num 3)⟩]
    [⟨some "0", some "PTS", some (RawValue.num 8)⟩,
     ⟨some "19", some "TO", some (RawValue.num 5)⟩]
    [⟨"0", "PTS", 0⟩, ⟨"19", "TO", 1⟩] 2 0
    [("PTS", Outcome.W), ("TO", Outcome.W)] (by decide) (by decide)

theorem mem_insertS {α : Type*} (keep : α → α → Bool) (x a : α) (l : List α) :
    a ∈ insertS keep x l ↔ a = x ∨ a ∈ l := by
  induction l with
  | nil => simp [insertS]
  | cons y ys ih =>
    simp only [insertS]
    split_ifs
    · simp [List.mem_cons]
    · rw [List.mem_cons, ih, List.mem_cons]
      tauto

theorem insertS_perm {α : Type*} (keep : α → α → Bool) (x : α) (l : List α) :
    (insertS keep x l).Perm (x :: l) := by
  induction l with
  | nil => simp [insertS]
  | cons y ys ih =>
    simp only [insertS]
    split_ifs
    · exact List.Perm.refl _
    · exact (ih.cons y).trans (List.Perm.swap x y ys)

theorem sortS_perm {α : Type*} (keep : α → α → Bool) (l : List α) :
    (sortS keep l).Perm l := by
  induction l with
  | nil => exact List.Perm.refl _
  | cons x xs ih => exact (insertS_perm keep x _).trans (ih.cons x)

theorem pairwise_insertS {α : Type*} (keep : α → α → Bool)
    (htot : ∀ a b, (keep a b || keep b a) = true)
    (htrans : ∀ a b c, keep a b = true → keep b c = true → keep a c = true)
    (x : α) (l : List α) (hl : l.Pairwise fun a b => keep a b = true) :
    (insertS keep x l).Pairwise fun a b => keep a b = true := by
  induction l with
  | nil => simp [insertS]
  | cons y ys ih =>
    rcases List.pairwise_cons.mp hl with ⟨hy, hys⟩
    simp only [insertS]
    split_ifs with hxy
    · refine List.pairwise_cons.mpr ⟨?_, hl⟩
      intro b hb
      rcases List.mem_cons.mp hb with rfl | hb
      · exact hxy
      · exact htrans _ _ _ hxy (hy b hb)
    · refine List.pairwise_cons.mpr ⟨?_, ih hys⟩
      intro b hb
      rcases (mem_insertS keep x b ys).mp hb with hbx | hb
      · have h := htot x y
        rw [Bool.or_eq_true] at h
        rcases h with h | h
        · exact absurd h hxy
        · rw [hbx]
          exact h
      · exact hy b hb

theorem pairwise_sortS {α : Type*} (keep : α → α → Bool)
    (htot : ∀ a b, (keep a b || keep b a) = true)
    (htrans : ∀ a b c, keep a b = true → keep b c = true → keep a c = true)
    (l : List α) :
    (sortS keep l).Pairwise fun a b => keep a b = true := by
  induction l with
  | nil => simp [sortS]
  | cons x xs ih => exact pairwise_insertS keep htot htrans x _ ih

theorem filter_insertS {α : Type*} (keep : α → α → Bool) (q : α → Bool)
    (hq : ∀ a b, q a = true → q b = true → keep a b = true)
    (x : α) (l : List α) :
    (insertS keep x l).filter q =
      if q x then x :: l.filter q else l.filter q := by
  induction l with
  | nil => simp [insertS, List.filter_cons]
  | cons y ys ih =>
    simp only [insertS]
    by_cases hxy : keep x y = true
    · rw [if_pos hxy, List.filter_cons]
    · rw [if_neg hxy, List.filter_cons]
      by_cases hqy : q y = true
      · rw [if_pos hqy]
        by_cases hqx : q x = true
        · exact absurd (hq x y hqx hqy) hxy
        · rw [ih, if_neg hqx, if_neg hqx, List.filter_cons, if_pos hqy]
      · simp only [Bool.not_eq_true] at hqy
        rw [if_neg (by simp [hqy])]
        simp [List.filter_cons, hqy, ih]

theorem filter_sortS {α : Type*} (keep : α → α → Bool) (q : α → Bool)
    (hq : ∀ a b, q a = true → q b = true → keep a b = true) (l : List α) :
    (sortS keep l).filter q = l.filter q := by
  induction l with
  | nil => rfl
  | cons x xs ih =>
    simp only [sortS]
    rw [filter_insertS keep q hq, ih, List.filter_cons]

theorem teamLookup_team_id (teams : List Team) (tid : String) (t : Team)
    (h : teamLookup teams tid = some t) : t.team_id = tid := by
  have hp := List.find?_some h
  simpa using hp

theorem teamLookup_isSome_of_mem (teams : List Team) (tid : String)
    (h : tid ∈ teams.map Team.team_id) : (teamLookup teams tid).isSome := by
  rw [teamLookup, List.find?_isSome]
  rcases List.mem_map.mp h with ⟨t, ht, rfl⟩
  exact ⟨t, by simpa using ht, by simp⟩

theorem buildMatchupResults_map_teamid (selId : String) (selStats : List Stat)
    (allTeams : List Team) (cats : List CatInfo) :
    ∀ (ats : List (String × List Stat)) (ms : List MatchupResult),
      buildMatchupResults selId selStats allTeams cats ats = some ms →
      ms.map (fun r => r.team.team_id) =
        (ats.map Prod.fst).filter
          (fun t => decide (t ≠ selId) && (teamLookup allTeams t).isSome) := by
  intro ats
  induction ats with
  | nil =>
    intro ms h
    simp only [buildMatchupResults, Option.some.injEq] at h
    subst h
    rfl
  | cons p rest ih =>
    obtain ⟨tid, stats⟩ := p
    intro ms h
    simp only [buildMatchupResults] at h
    split at h
    case isTrue hsel =>
      subst hsel
      simp [ih ms h, List.filter_cons]
    case isFalse hsel =>
      split at h
      case _ hlk =>
        simp [ih ms h, List.filter_cons, hlk]
      case _ team hlk =>
        split at h
        case _ hh => cases h
        case _ w l res hh =>
          split at h
          case _ hrec => cases h
          case _ ms' hrec =>
            simp only [Option.some.injEq] at h
            subst h
            simp [List.map_cons, ih ms' hrec, List.filter_cons, hlk, hsel,
              teamLookup_team_id allTeams tid team hlk]

/-- C8: head-to-head scoring produces exactly one result for every roster
member other than the selected team (given one stat record per roster
member and no type-mixing crash), ordered by win count descending with
equal win counts retaining encounter order (stable sort, no secondary
key). -/
theorem compare_head_to_head_spec
    (selected_team : Team) (selected_stats : List Stat) (all_teams : List Team)
    (all_team_stats : List (String × List Stat)) (cats : List CatInfo)
    (ms : List MatchupResult) :
    buildMatchupResults selected_team.team_id selected_stats all_teams cats
        all_team_stats = some ms →
    (all_team_stats.map Prod.fst).Perm (all_teams.map Team.team_id) →
    (all_teams.map Team.team_id).Nodup →
    compare_head_to_head selected_team selected_stats all_teams all_team_stats
        cats = some (sortS (fun a b => decide (b.wins ≤ a.wins)) ms) ∧
    ((sortS (fun a b => decide (b.wins ≤ a.wins)) ms).map
        (fun r => r.team.team_id)).Perm
      ((all_teams.map Team.team_id).filter
        (fun t => decide (t ≠ selected_team.team_id))) ∧
    (sortS (fun a b => decide (b.wins ≤ a.wins)) ms).Pairwise
      (fun a b => b.wins ≤ a.wins) ∧
    (∀ wcount : Nat,
      (sortS (fun a b => decide (b.wins ≤ a.wins)) ms).filter
          (fun r => r.wins == wcount) =
        ms.filter (fun r => r.wins == wcount)) := by
  intro hbuild hperm hnodup
  refine ⟨?_, ?_, ?_, ?_⟩
  · simp [compare_head_to_head, hbuild]
  · have hmap := buildMatchupResults_map_teamid selected_team.team_id
      selected_stats all_teams cats all_team_stats ms hbuild
    have hs : ((sortS (fun a b => decide (b.wins ≤ a.wins)) ms).map
        (fun r => r.team.team_id)).Perm (ms.map (fun r => r.team.team_id)) :=
      (sortS_perm _ ms).map _
    have h2 : ((all_team_stats.map Prod.fst).filter
        (fun t => decide (t ≠ selected_team.team_id) &&
          (teamLookup all_teams t).isSome)).Perm
        ((all_teams.map Team.team_id).filter
          (fun t => decide (t ≠ selected_team.team_id) &&
            (teamLookup all_teams t).isSome)) := hperm.filter _
    have h3 : (all_teams.map Team.team_id).filter
          (fun t => decide (t ≠ selected_team.team_id) &&
            (teamLookup all_teams t).isSome) =
        (all_teams.map Team.team_id).filter
          (fun t => decide (t ≠ selected_team.team_id)) := by
      apply List.filter_congr
      intro t ht
      rw [teamLookup_isSome_of_mem all_teams t ht, Bool.and_true]
    rw [hmap] at hs
    rw [h3] at h2
    exact hs.trans h2
  · have hp := pairwise_sortS (fun a b : MatchupResult => decide (b.wins ≤ a.wins))
      (fun a b => by
        simp only [Bool.or_eq_true, decide_eq_true_eq]
        omega)
      (fun a b c hab hbc => by
        simp only [decide_eq_true_eq] at hab hbc ⊢
        omega) ms
    exact hp.imp fun h => by simpa using h
  · intro wcount
    exact filter_sortS (fun a b : MatchupResult => decide (b.wins ≤ a.wins))
      (fun r => r.wins == wcount)
      (fun a b ha hb => by
        simp only [beq_iff_eq] at ha hb
        simp only [decide_eq_true_eq]
        omega) ms

/-- Witness for C8 at a three-team roster with one category. -/
theorem compare_head_to_head_spec_witness :
    compare_head_to_head ⟨"t1", "Me"⟩
        [⟨some "0", some "PTS", some (RawValue.num 10)⟩]
        [⟨"t1", "Me"⟩, ⟨"t2", "B"⟩, ⟨"t3", "C"⟩]
        [("t1", [⟨some "0", some "PTS", some (RawValue.num 10)⟩]),
         ("t2", [⟨some "0", some "PTS", some (RawValue.num 12)⟩]),
         ("t3", [⟨some "0", some "PTS", some (RawValue.num 7)⟩])]
        [⟨"0", "PTS", 0⟩] =
      some (sortS (fun a b : MatchupResult => decide (b.wins ≤ a.wins))
        ([⟨⟨"t2", "B"⟩, "0-1", 0, 1, [("PTS", Outcome.L)]⟩,
          ⟨⟨"t3", "C"⟩, "1-0", 1, 0, [("PTS", Outcome.W)]⟩] :
          List MatchupResult)) ∧
    ((sortS (fun a b : MatchupResult => decide (b.wins ≤ a.wins))
        ([⟨⟨"t2", "B"⟩, "0-1", 0, 1, [("PTS", Outcome.L)]⟩,
          ⟨⟨"t3", "C"⟩, "1-0", 1, 0, [("PTS", Outcome.W)]⟩] :
          List MatchupResult)).map
        (fun r => r.team.team_id)).Perm
      ((([⟨"t1", "Me"⟩, ⟨"t2", "B"⟩, ⟨"t3", "C"⟩] : List Team).map
          Team.team_id).filter (fun t => decide (t ≠ "t1"))) ∧
    (sortS (fun a b : MatchupResult => decide (b.wins ≤ a.wins))
        ([⟨⟨"t2", "B"⟩, "0-1", 0, 1, [("PTS", Outcome.L)]⟩,
          ⟨⟨"t3", "C"⟩, "1-0", 1, 0, [("PTS", Outcome.W)]⟩] :
          List MatchupResult)).Pairwise
      (fun a b => b.wins ≤ a.wins) := by
  have h := compare_head_to_head_spec ⟨"t1", "Me"⟩
    [⟨some "0", some "PTS", some (RawValue.num 10)⟩]
    [⟨"t1", "Me"⟩, ⟨"t2", "B"⟩, ⟨"t3", "C"⟩]
    [("t1", [⟨some "0", some "PTS", some (RawValue.num 10)⟩]),
     ("t2", [⟨some "0", some "PTS", some (RawValue.num 12)⟩]),
     ("t3", [⟨some "0", some "PTS", some (RawValue.num 7)⟩])]
    [⟨"0", "PTS", 0⟩]
    [⟨⟨"t2", "B"⟩, "0-1", 0, 1, [("PTS", Outcome.L)]⟩,
     ⟨⟨"t3", "C"⟩, "1-0", 1, 0, [("PTS", Outcome.W)]⟩]
    (by decide) (by decide) (by decide)
  exact ⟨h.1, h.2.1, h.2.2.1⟩
